import Mathlib

/-!
Verification development for the MonoAgent repository splitter
(`split_repo_agent.py`).  Each Python routine relevant to the checked
claims is shallowly embedded as an executable Lean definition; the
theorems at the end of the file settle the claims against those
definitions.
-/

set_option maxRecDepth 10000

namespace MonoAgent

/-! ## Repository-name sanitization (`RepoSplitter._sanitize_repo_name`)

Python source:
```
name = raw_name.strip().lower()
name = re.sub(r"[^a-z0-9._-]", "-", name)
name = re.sub(r"-+", "-", name)
name = name.strip("-._")
return name or "repo"
```
-/

/-- The ASCII whitespace characters stripped by Python `str.strip()`.
(Python also strips some non-ASCII Unicode spaces; those fall outside
`[a-z0-9._-]` and are mapped to `-` by the later substitution in any
case, so the ASCII model is faithful on the claims checked here.) -/
def isPySpace (c : Char) : Bool :=
  c = ' ' || c = '\t' || c = '\n' || c = '\r' || c = '\x0b' || c = '\x0c'

/-- ASCII lower-casing of one character, as `str.lower()` acts on the
ASCII range (codepoints 65-90 shift by 32). -/
def lowerChar (c : Char) : Char :=
  if 65 ≤ c.toNat ∧ c.toNat ≤ 90 then Char.ofNat (c.toNat + 32) else c

/-- Membership in the character class `[a-z0-9._-]` (codepoints
97-122, 48-57, 46, 95, 45). -/
def isAllowed (c : Char) : Bool :=
  (97 ≤ c.toNat && c.toNat ≤ 122) || (48 ≤ c.toNat && c.toNat ≤ 57)
    || c = '.' || c = '_' || c = '-'

/-- Characters stripped by `name.strip("-._")`. -/
def isTrimmed (c : Char) : Bool :=
  c = '-' || c = '.' || c = '_'

/-- Python `str.strip` with character predicate `p`: drop a maximal run
satisfying `p` from both ends. -/
def pyStrip (p : Char → Bool) (l : List Char) : List Char :=
  ((l.dropWhile p).reverse.dropWhile p).reverse

/-- `re.sub(r"-+", "-", ·)`: collapse every maximal run of dashes to a
single dash. -/
def collapseDashes : List Char → List Char
  | [] => []
  | [c] => [c]
  | a :: b :: rest =>
    if a = '-' ∧ b = '-' then collapseDashes (b :: rest)
    else a :: collapseDashes (b :: rest)

/-- The four-stage character pipeline of `_sanitize_repo_name`, before
the final empty-string default. -/
def sanitizeChars (l : List Char) : List Char :=
  pyStrip isTrimmed
    (collapseDashes
      (((pyStrip isPySpace l).map lowerChar).map
        (fun c => if isAllowed c then c else '-')))

/-- `RepoSplitter._sanitize_repo_name`. -/
def sanitizeRepoName (s : String) : String :=
  if (sanitizeChars s.toList).isEmpty then "repo"
  else String.mk (sanitizeChars s.toList)

/-! ### Supporting lemmas for sanitization -/

theorem dropWhile_eq_self_of_all_not {p : Char → Bool} {l : List Char}
    (h : ∀ c ∈ l, p c = false) : l.dropWhile p = l := by
  cases l with
  | nil => rfl
  | cons c t => simp [List.dropWhile_cons, h c (List.mem_cons_self c t)]

theorem pyStrip_eq_self_of_all_not {p : Char → Bool} {l : List Char}
    (h : ∀ c ∈ l, p c = false) : pyStrip p l = l := by
  unfold pyStrip
  rw [dropWhile_eq_self_of_all_not h,
      dropWhile_eq_self_of_all_not (by simpa using h), List.reverse_reverse]

theorem map_eq_self_of_fix {f : Char → Char} {l : List Char}
    (h : ∀ c ∈ l, f c = c) : l.map f = l := by
  induction l with
  | nil => rfl
  | cons c t ih =>
    simp only [List.map_cons, h c (List.mem_cons_self c t)]
    rw [ih (fun d hd => h d (List.mem_cons_of_mem c hd))]

/-- Every character of a `collapseDashes` output occurs in its input. -/
theorem mem_collapseDashes {c : Char} : ∀ {l : List Char},
    c ∈ collapseDashes l → c ∈ l
  | [], h => h
  | [_], h => h
  | a :: b :: rest, h => by
    unfold collapseDashes at h
    by_cases hab : a = '-' ∧ b = '-'
    · rw [if_pos hab] at h
      exact List.mem_cons_of_mem a (mem_collapseDashes h)
    · rw [if_neg hab] at h
      rcases List.mem_cons.1 h with h1 | h1
      · exact h1 ▸ List.mem_cons_self a _
      · exact List.mem_cons_of_mem a (mem_collapseDashes h1)

/-- Every character of a `pyStrip` output occurs in its input. -/
theorem mem_pyStrip {p : Char → Bool} {c : Char} {l : List Char}
    (h : c ∈ pyStrip p l) : c ∈ l := by
  unfold pyStrip at h
  rw [List.mem_reverse] at h
  have h1 := (List.dropWhile_sublist (l := (l.dropWhile p).reverse) p).subset h
  rw [List.mem_reverse] at h1
  exact (List.dropWhile_sublist p).subset h1

/-- Every character of `sanitizeChars l` lies in `[a-z0-9._-]`. -/
theorem sanitizeChars_all_allowed {l : List Char} :
    ∀ c ∈ sanitizeChars l, isAllowed c = true := by
  intro c hc
  unfold sanitizeChars at hc
  have h1 := mem_collapseDashes (mem_pyStrip hc)
  rcases List.mem_map.1 h1 with ⟨d, _, hd⟩
  subst hd
  by_cases h : isAllowed d = true
  · rw [if_pos h]
    exact h
  · rw [if_neg h]
    decide

/-- The relation "not two dashes in a row"; `List.Chain' NoDDRel l`
states that `l` has no `--` substring. -/
def NoDDRel (a b : Char) : Prop := ¬(a = '-' ∧ b = '-')

theorem flip_noDDRel : flip NoDDRel = NoDDRel := by
  funext a b
  simp only [flip, NoDDRel, eq_iff_iff, and_comm]

theorem chain'_noDD_reverse {m : List Char} :
    List.Chain' NoDDRel m.reverse ↔ List.Chain' NoDDRel m := by
  rw [List.chain'_reverse, flip_noDDRel]

theorem collapseDashes_cons_eq : ∀ (c : Char) (cs : List Char),
    ∃ t, collapseDashes (c :: cs) = c :: t
  | _, [] => ⟨[], rfl⟩
  | c, d :: ds => by
    rcases collapseDashes_cons_eq d ds with ⟨t, ht⟩
    by_cases h : c = '-' ∧ d = '-'
    · refine ⟨t, ?_⟩
      obtain ⟨hc, hd⟩ := h
      subst hc
      subst hd
      rw [show collapseDashes ('-' :: '-' :: ds) = collapseDashes ('-' :: ds) from by
            rw [collapseDashes, if_pos ⟨rfl, rfl⟩]]
      exact ht
    · exact ⟨collapseDashes (d :: ds), by rw [collapseDashes, if_neg h]⟩

/-- `collapseDashes` leaves no two adjacent dashes. -/
theorem chain'_collapseDashes : ∀ (l : List Char),
    List.Chain' NoDDRel (collapseDashes l)
  | [] => List.chain'_nil
  | [c] => List.chain'_singleton c
  | a :: b :: rest => by
    by_cases h : a = '-' ∧ b = '-'
    · rw [collapseDashes, if_pos h]
      exact chain'_collapseDashes (b :: rest)
    · rw [collapseDashes, if_neg h]
      rcases collapseDashes_cons_eq b rest with ⟨t, ht⟩
      rw [ht]
      refine List.chain'_cons.2 ⟨h, ?_⟩
      rw [← ht]
      exact chain'_collapseDashes (b :: rest)

/-- On a list with no two adjacent dashes, `collapseDashes` is the
identity. -/
theorem collapseDashes_eq_self : ∀ {l : List Char},
    List.Chain' NoDDRel l → collapseDashes l = l
  | [], _ => rfl
  | [_], _ => rfl
  | a :: b :: rest, h => by
    have hab : NoDDRel a b := (List.chain'_cons.1 h).1
    have htail := (List.chain'_cons.1 h).2
    rw [collapseDashes, if_neg hab, collapseDashes_eq_self htail]

theorem chain'_pyStrip {p : Char → Bool} {l : List Char}
    (h : List.Chain' NoDDRel l) : List.Chain' NoDDRel (pyStrip p l) := by
  unfold pyStrip
  rw [chain'_noDD_reverse]
  have h1 : List.Chain' NoDDRel (l.dropWhile p) := h.suffix (List.dropWhile_suffix p)
  have h2 : List.Chain' NoDDRel (l.dropWhile p).reverse := chain'_noDD_reverse.2 h1
  exact h2.suffix (List.dropWhile_suffix p)

theorem head?_dropWhile_false {p : Char → Bool} : ∀ {l : List Char} {c : Char},
    (l.dropWhile p).head? = some c → p c = false
  | [], _, h => by simp [List.dropWhile] at h
  | a :: t, c, h => by
    cases hpa : p a with
    | true =>
      rw [List.dropWhile_cons] at h
      simp only [hpa, if_true] at h
      exact head?_dropWhile_false h
    | false =>
      rw [List.dropWhile_cons] at h
      simp only [hpa, Bool.false_eq_true, if_false, List.head?_cons,
        Option.some.injEq] at h
      exact h ▸ hpa

theorem dropWhile_eq_self_of_head? {p : Char → Bool} {l : List Char}
    (h : ∀ c, l.head? = some c → p c = false) : l.dropWhile p = l := by
  cases l with
  | nil => rfl
  | cons a t =>
    rw [List.dropWhile_cons]
    simp [h a rfl]

theorem getLast?_dropWhile {p : Char → Bool} : ∀ {l : List Char},
    l.dropWhile p = [] ∨ (l.dropWhile p).getLast? = l.getLast?
  | [] => Or.inl rfl
  | a :: t => by
    cases hpa : p a with
    | true =>
      rw [List.dropWhile_cons]
      simp only [hpa, if_true]
      rcases getLast?_dropWhile (p := p) (l := t) with h | h
      · exact Or.inl h
      · cases t with
        | nil => exact Or.inl (by simp)
        | cons b u => exact Or.inr (by rw [h, List.getLast?_cons_cons])
    | false =>
      rw [List.dropWhile_cons]
      simp only [hpa, Bool.false_eq_true, if_false]
      exact Or.inr trivial

/-- Stripping a character class from both ends is idempotent. -/
theorem pyStrip_idem (p : Char → Bool) (l : List Char) :
    pyStrip p (pyStrip p l) = pyStrip p l := by
  have hhead : ∀ c, (pyStrip p l).head? = some c → p c = false := by
    intro c hc
    unfold pyStrip at hc
    rw [List.head?_reverse] at hc
    rcases getLast?_dropWhile (p := p) (l := (l.dropWhile p).reverse) with h | h
    · rw [h] at hc
      simp at hc
    · rw [h, List.getLast?_reverse] at hc
      exact head?_dropWhile_false hc
  have hheadB : ∀ c, ((l.dropWhile p).reverse.dropWhile p).head? = some c →
      p c = false := fun c hc => head?_dropWhile_false hc
  have hR : (pyStrip p l).dropWhile p = pyStrip p l := dropWhile_eq_self_of_head? hhead
  have hrev : (pyStrip p l).reverse = (l.dropWhile p).reverse.dropWhile p := by
    unfold pyStrip
    rw [List.reverse_reverse]
  show ((((pyStrip p l).dropWhile p).reverse).dropWhile p).reverse = pyStrip p l
  rw [hR, hrev, dropWhile_eq_self_of_head? hheadB]
  rfl

/-- Codepoint facts about `[a-z0-9._-]` characters: at least 45, and
never in the upper-case range 65-90. -/
theorem allowed_facts {c : Char} (h : isAllowed c = true) :
    45 ≤ c.toNat ∧ ¬(65 ≤ c.toNat ∧ c.toNat ≤ 90) := by
  simp only [isAllowed, Bool.or_eq_true, Bool.and_eq_true, decide_eq_true_eq] at h
  rcases h with ((((⟨h1, h2⟩ | ⟨h1, h2⟩) | e) | e) | e)
  · exact ⟨by omega, by omega⟩
  · exact ⟨by omega, by omega⟩
  · subst e
    exact ⟨by decide, by decide⟩
  · subst e
    exact ⟨by decide, by decide⟩
  · subst e
    exact ⟨by decide, by decide⟩

/-- Allowed characters are not whitespace. -/
theorem allowed_not_space {c : Char} (h : isAllowed c = true) : isPySpace c = false := by
  have h45 := (allowed_facts h).1
  have hne : ∀ x : Char, x.toNat < 45 → c ≠ x := by
    intro x hx e
    subst e
    omega
  simp only [isPySpace, Bool.or_eq_false_iff, decide_eq_false_iff_not]
  exact ⟨⟨⟨⟨⟨hne ' ' (by decide), hne '\t' (by decide)⟩, hne '\n' (by decide)⟩,
    hne '\r' (by decide)⟩, hne '\x0b' (by decide)⟩, hne '\x0c' (by decide)⟩

/-- Allowed characters are fixed by ASCII lower-casing. -/
theorem allowed_lower_fix {c : Char} (h : isAllowed c = true) : lowerChar c = c := by
  unfold lowerChar
  exact if_neg (allowed_facts h).2

/-- On an all-allowed list the sanitizer pipeline reduces to the final
trim of `-`, `.`, `_` from both ends. -/
theorem sanitizeChars_of_allowed {l : List Char}
    (hall : ∀ c ∈ l, isAllowed c = true)
    (hnd : List.Chain' NoDDRel l) :
    sanitizeChars l = pyStrip isTrimmed l := by
  unfold sanitizeChars
  rw [pyStrip_eq_self_of_all_not (fun c hc => allowed_not_space (hall c hc)),
      map_eq_self_of_fix (fun c hc => allowed_lower_fix (hall c hc)),
      map_eq_self_of_fix (fun c hc => by rw [if_pos (hall c hc)]),
      collapseDashes_eq_self hnd]

/-- Applying `sanitizeChars` to its own output is the identity. -/
theorem sanitizeChars_idem (l : List Char) :
    sanitizeChars (sanitizeChars l) = sanitizeChars l := by
  have hall := sanitizeChars_all_allowed (l := l)
  have hnd : List.Chain' NoDDRel (sanitizeChars l) :=
    chain'_pyStrip (chain'_collapseDashes _)
  rw [sanitizeChars_of_allowed hall hnd]
  unfold sanitizeChars
  exact pyStrip_idem isTrimmed _

theorem toList_mk (l : List Char) : (String.mk l).toList = l := rfl

/-- Full idempotence of `_sanitize_repo_name`. -/
theorem sanitizeRepoName_idem (s : String) :
    sanitizeRepoName (sanitizeRepoName s) = sanitizeRepoName s := by
  by_cases h : (sanitizeChars s.toList).isEmpty = true
  · have h1 : sanitizeRepoName s = "repo" := by
      unfold sanitizeRepoName
      rw [if_pos h]
    rw [h1]
    decide
  · have h1 : sanitizeRepoName s = String.mk (sanitizeChars s.toList) := by
      unfold sanitizeRepoName
      rw [if_neg h]
    rw [h1]
    unfold sanitizeRepoName
    rw [toList_mk, sanitizeChars_idem, if_neg h]

/-! ## Data model (`@dataclass` definitions of `split_repo_agent.py`) -/

/-- `DependencyInfo`: one manifest-declared dependency. -/
structure DependencyInfo where
  name : String
  source : String
  project_path : String
  version : Option String := none
  is_dev_dependency : Bool := false
  is_peer_dependency : Bool := false
deriving DecidableEq

/-- `ProjectInfo`: a detected project/app. -/
structure ProjectInfo where
  name : String
  path : String
  type : String
  dependencies : List String := []
  files : List String := []
  size : Nat := 0
  description : String := ""
deriving DecidableEq

/-- `CommonComponent`: a detected shared component. -/
structure CommonComponent where
  name : String
  path : String
  usage_count : Nat := 0
  used_by : List String := []
  files : List String := []
deriving DecidableEq

/-- `DependencyConflict`: a detected cross-project problem. -/
structure DependencyConflict where
  source_project : String
  target_project : String
  conflict_type : String
  description : String
  severity : String
  resolution_suggestions : List String := []
deriving DecidableEq

/-! ## Association-list model of Python dictionaries

Python dictionaries have unique keys and preserve insertion order;
updating an existing key keeps its position, a new key is appended.
-/

/-- Lookup in an insertion-ordered dictionary. -/
def alookup {α : Type} (k : String) : List (String × α) → Option α
  | [] => none
  | (k', v) :: rest => if k' = k then some v else alookup k rest

/-- `d[k] = f(d[k] or init)`: update the value at `k` in place, or
append `(k, f init)` when `k` is absent (`defaultdict` access). -/
def updWith {α : Type} (k : String) (f : α → α) (init : α) :
    List (String × α) → List (String × α)
  | [] => [(k, f init)]
  | (k', v) :: rest =>
    if k' = k then (k, f v) :: rest else (k', v) :: updWith k f init rest

/-- Python set `add` on an insertion-ordered list model. -/
def setAdd (s : List String) (x : String) : List String :=
  if x ∈ s then s else s ++ [x]

/-! ## Conflict detection (`MonorepoAnalyzer._detect_*`)

`dependency_details` is modelled as the insertion-ordered dictionary
`List (String × List DependencyInfo)` from project name to manifest
records; `projects` as `List (String × ProjectInfo)`.
-/

/-- Truthiness of `dep.version` in `if dep.version:` — `None` and the
empty string are falsy. -/
def versionTruthy : Option String → Bool
  | none => false
  | some v => v ≠ ""

/-- The collection loop of `_detect_version_conflicts`:
`dependency_versions[dep.name][project_name] = dep.version` for every
record with a truthy version. -/
def buildDependencyVersions (details : List (String × List DependencyInfo)) :
    List (String × List (String × String)) :=
  details.foldl
    (fun acc pd =>
      pd.2.foldl
        (fun acc2 dep =>
          match dep.version with
          | some v => if v ≠ "" then updWith dep.name (updWith pd.1 (fun _ => v) v) [] acc2 else acc2
          | none => acc2)
        acc)
    []

/-- Python `str(dict)` for a string-to-string dictionary, as embedded
in the version-conflict description. -/
def pyDictRepr (l : List (String × String)) : String :=
  "\x7b" ++ String.intercalate ", "
    (l.map (fun p => "\x27" ++ p.1 ++ "\x27: \x27" ++ p.2 ++ "\x27")) ++ "\x7d"

/-- The conflict emitted by `_detect_version_conflicts` for one
dependency name and its per-project version dictionary. -/
def mkVersionConflict (depName : String) (versions : List (String × String)) :
    DependencyConflict :=
  { source_project := "multiple"
    target_project := depName
    conflict_type := "version_mismatch"
    description := "Version conflict for \x27" ++ depName ++ "\x27: " ++ pyDictRepr versions
    severity := "high"
    resolution_suggestions :=
      [ "Standardize \x27" ++ depName ++ "\x27 version across all projects"
      , "Move \x27" ++ depName ++ "\x27 to a shared dependency management system"
      , "Consider creating a shared library for \x27" ++ depName ++ "\x27" ] }

/-- `MonorepoAnalyzer._detect_version_conflicts`. -/
def detectVersionConflicts (details : List (String × List DependencyInfo)) :
    List DependencyConflict :=
  (buildDependencyVersions details).filterMap
    (fun nv =>
      if 1 < (nv.2.map Prod.snd).dedup.length then some (mkVersionConflict nv.1 nv.2)
      else none)

/-- The conflict emitted by `_detect_missing_dependencies` for one
internal (source, target) dependency pair. -/
def mkMissingConflict (projectName dep : String) : DependencyConflict :=
  { source_project := projectName
    target_project := dep
    conflict_type := "missing_dependency"
    description := "Project \x27" ++ projectName ++ "\x27 depends on project \x27"
      ++ dep ++ "\x27 which will be separated"
    severity := "critical"
    resolution_suggestions :=
      [ "Move shared code from \x27" ++ dep ++ "\x27 to a common component"
      , "Create a shared library for \x27" ++ dep ++ "\x27"
      , "Update \x27" ++ projectName ++ "\x27 to use external dependency for \x27" ++ dep ++ "\x27"
      , "Keep \x27" ++ projectName ++ "\x27 and \x27" ++ dep ++ "\x27 in the same repository" ] }

/-- Key membership test, `dep in self.projects`. -/
def keyMem {α : Type} (projects : List (String × α)) (k : String) : Bool :=
  projects.any (fun q => q.1 = k)

/-- `MonorepoAnalyzer._detect_missing_dependencies`. -/
def detectMissingDependencies (projects : List (String × ProjectInfo)) :
    List DependencyConflict :=
  projects.flatMap
    (fun pp =>
      pp.2.dependencies.filterMap
        (fun dep =>
          if keyMem projects dep ∧ dep ≠ pp.1 then some (mkMissingConflict pp.1 dep)
          else none))

/-- The dependency graph of `_detect_circular_dependencies`:
`graph[project_name].add(dep)` for every dependency naming a known
project.  Python iterates sets in an unspecified order; the model keeps
insertion order. -/
def buildGraph (projects : List (String × ProjectInfo)) :
    List (String × List String) :=
  projects.foldl
    (fun g pp =>
      pp.2.dependencies.foldl
        (fun g2 dep =>
          if keyMem projects dep then updWith pp.1 (fun s => setAdd s dep) [] g2
          else g2)
        g)
    []

/-- `graph[node]` with the `defaultdict(set)` empty default. -/
def neighbors (g : List (String × List String)) (node : String) : List String :=
  (alookup node g).getD []

/-- The neighbor loop of `has_cycle`, with Python early `return True`
(which leaves `node` on the recursion stack).  `step` is the recursive
`has_cycle` call at the next depth. -/
def hasCycleNbrs
    (step : String → List String × List String → Bool × (List String × List String)) :
    List String → List String × List String → Bool × (List String × List String)
  | [], st => (false, st)
  | nb :: rest, (v, r) =>
    if nb ∉ v then
      match step nb (v, r) with
      | (true, st) => (true, st)
      | (false, st) => hasCycleNbrs step rest st
    else if nb ∈ r then (true, (v, r))
    else hasCycleNbrs step rest (v, r)

/-- The inner `has_cycle` DFS of `_detect_circular_dependencies`.
State is `(visited, rec_stack)`, both insertion-ordered set models;
`fuel` bounds the recursion depth.  Any fuel larger than the number of
graph nodes is never exhausted, because every recursive call is made on
a previously unvisited node. -/
def hasCycle (g : List (String × List String)) :
    Nat → String → List String × List String → Bool × (List String × List String)
  | 0 => fun _ st => (false, st)
  | fuel + 1 => fun node st =>
    let v1 := setAdd st.1 node
    let r1 := setAdd st.2 node
    match hasCycleNbrs (hasCycle g fuel) (neighbors g node) (v1, r1) with
    | (true, st') => (true, st')
    | (false, (v2, r2)) => (false, (v2, r2.filter (fun x => x ≠ node)))

/-- The neighbor loop of the `dfs` in `_find_cycle`, returning the
first non-empty result (a found cycle is always a non-empty list, so
Python truthiness of the result coincides with `Option.isSome`). -/
def findCycleNbrs
    (step : String → List String → List String → Option (List String) × List String) :
    List String → List String → List String → Option (List String) × List String
  | [], v, _ => (none, v)
  | nb :: rest, v, path =>
    match step nb v path with
    | (some c, v') => (some c, v')
    | (none, v') => findCycleNbrs step rest v' path

/-- The inner `dfs` of `_find_cycle`: returns the reconstructed cycle
(or `none`) and the updated local `visited` set; `path` is passed by
value, so the Python `path.pop()` is implicit. -/
def findCycleDfs (g : List (String × List String)) :
    Nat → String → List String → List String → Option (List String) × List String
  | 0 => fun _ v _ => (none, v)
  | fuel + 1 => fun node v path =>
    if node ∈ path then (some (path.dropWhile (fun x => x ≠ node) ++ [node]), v)
    else if node ∈ v then (none, v)
    else findCycleNbrs (findCycleDfs g fuel) (neighbors g node) (v ++ [node]) (path ++ [node])

/-- `MonorepoAnalyzer._find_cycle`: `dfs(start_node) or []`. -/
def findCycle (g : List (String × List String)) (fuel : Nat) (start : String) :
    List String :=
  ((findCycleDfs g fuel start [] []).1).getD []

/-- The conflict emitted by `_detect_circular_dependencies` for one
reconstructed cycle. -/
def mkCircularConflict (cycle : List String) : DependencyConflict :=
  { source_project := "circular"
    target_project := String.intercalate "->" cycle
    conflict_type := "circular_dependency"
    description := "Circular dependency detected: " ++ String.intercalate " -> " cycle
    severity := "critical"
    resolution_suggestions :=
      [ "Extract shared functionality to a common component"
      , "Refactor to break the circular dependency"
      , "Use dependency injection or interfaces"
      , "Consider merging the circularly dependent projects" ] }

/-- `MonorepoAnalyzer._detect_circular_dependencies`: DFS from every
not-yet-visited project, emitting one conflict per root whose DFS finds
a back edge. -/
def detectCircularDependencies (projects : List (String × ProjectInfo)) :
    List DependencyConflict :=
  let graph := buildGraph projects
  let fuel := projects.length + 1
  (projects.foldl
    (fun (acc : List DependencyConflict × List String × List String) pp =>
      let (confs, v, r) := acc
      if pp.1 ∈ v then acc
      else
        match hasCycle graph fuel pp.1 (v, r) with
        | (true, (v', r')) =>
          (confs ++ [mkCircularConflict (findCycle graph fuel pp.1)], v', r')
        | (false, (v', r')) => (confs, v', r'))
    ([], [], [])).1

/-- The collection loop of `_detect_shared_dependencies`:
`shared_deps[dep.name].add(project_name)` for every manifest record. -/
def buildSharedDeps (details : List (String × List DependencyInfo)) :
    List (String × List String) :=
  details.foldl
    (fun acc pd =>
      pd.2.foldl
        (fun acc2 dep => updWith dep.name (fun s => setAdd s pd.1) [] acc2)
        acc)
    []

/-- The conflict emitted by `_detect_shared_dependencies` for one
dependency name used by the given projects. -/
def mkSharedConflict (depName : String) (projects : List String) :
    DependencyConflict :=
  { source_project := "shared"
    target_project := depName
    conflict_type := "shared_dependency"
    description := "\x27" ++ depName ++ "\x27 is used by " ++ toString projects.length
      ++ " projects: " ++ String.intercalate ", " projects
    severity := "medium"
    resolution_suggestions :=
      [ "Consider creating a shared library for \x27" ++ depName ++ "\x27"
      , "Move \x27" ++ depName ++ "\x27 to a common component"
      , "Use a monorepo package manager (Lerna, Nx, Rush) for \x27" ++ depName ++ "\x27" ] }

/-- `MonorepoAnalyzer._detect_shared_dependencies`. -/
def detectSharedDependencies (details : List (String × List DependencyInfo)) :
    List DependencyConflict :=
  (buildSharedDeps details).filterMap
    (fun np =>
      if 1 < np.2.length then some (mkSharedConflict np.1 np.2) else none)

/-! ## Path and string helpers

Executable list-based models of the Python string/path operations used
by detection and migration (`os.path.dirname`, `os.path.basename`,
`os.path.splitext`, `str.startswith`, `str.endswith`, `str.replace`).
-/

/-- Match a literal character sequence at the head of a list, returning
the remainder on success. -/
def stripPre : List Char → List Char → Option (List Char)
  | [], l => some l
  | _ :: _, [] => none
  | p :: ps, c :: cs => if c = p then stripPre ps cs else none

def startsWithList (pre l : List Char) : Bool :=
  (stripPre pre l).isSome

/-- Python `str.startswith`. -/
def strStartsWith (s pre : String) : Bool :=
  startsWithList pre.toList s.toList

/-- Python `str.endswith`. -/
def strEndsWith (s suf : String) : Bool :=
  startsWithList suf.toList.reverse s.toList.reverse

/-- Python `str.replace` restricted to a non-empty pattern: scan left
to right, replacing non-overlapping occurrences.  The fuel is the input
length; each step consumes at least one character, so the fuel is never
exhausted when initialized that way. -/
def replaceFuel (pat repl : List Char) : Nat → List Char → List Char
  | 0, l => l
  | _ + 1, [] => []
  | fuel + 1, c :: cs =>
    match stripPre pat (c :: cs) with
    | some rest => repl ++ replaceFuel pat repl fuel rest
    | none => c :: replaceFuel pat repl fuel cs

def pyReplace (s pat repl : String) : String :=
  String.mk (replaceFuel pat.toList repl.toList s.toList.length s.toList)

/-- Split on `/`, keeping empty segments (like `"a/b".split("/")`). -/
def splitOnSlash : List Char → List (List Char)
  | [] => [[]]
  | c :: cs =>
    let r := splitOnSlash cs
    if c = '/' then [] :: r
    else
      match r with
      | h :: t => (c :: h) :: t
      | [] => [[c]]

def pathParts (s : String) : List String :=
  (splitOnSlash s.toList).map String.mk

/-- `os.path.dirname` for relative slash-separated paths. -/
def dirName (s : String) : String :=
  let ps := pathParts s
  if ps.length ≤ 1 then "" else String.intercalate "/" ps.dropLast

/-- `os.path.basename` for relative slash-separated paths. -/
def baseName (s : String) : String :=
  ((pathParts s).getLast?).getD ""

/-- `os.path.splitext(s)[0]` for a bare filename: drop the part from
the last dot on, except when the name has no dot or consists of leading
dots only (as CPython does). -/
def splitextBaseList (cs : List Char) : List Char :=
  let rev := cs.reverse
  let ext := rev.takeWhile (fun c => c ≠ '.')
  if ext.length = rev.length then cs
  else
    let stemRev := rev.drop (ext.length + 1)
    if stemRev.length = 0 then cs
    else if stemRev.all (fun c => c = '.') then cs
    else stemRev.reverse

def splitextBase (s : String) : String :=
  String.mk (splitextBaseList s.toList)

/-! ## Project/component detection (`MonorepoAnalyzer._detect_*`, C4)

The Python regular expressions `r"apps?/([^/]+)"` etc. all have the
shape: literal stem, optional `s`, `/`, then a non-empty capture of
non-slash characters.  `reMatchAt` replicates one `re` match attempt at
a fixed position including the backtracking on `s?`; `reSearchPat`
replicates `re.search` (leftmost match).
-/

/-- Expect `/` and then a non-empty run of non-`/` characters. -/
def captureSeg : List Char → Option (List Char)
  | '/' :: rest =>
    let cap := rest.takeWhile (fun c => c ≠ '/')
    if cap.isEmpty then none else some cap
  | _ => none

/-- One match attempt of `stem s? / ([^/]+)` at the head of `l`,
greedy on `s?` with backtracking. -/
def reMatchAt (stem : List Char) (optS : Bool) (l : List Char) : Option (List Char) :=
  match stripPre stem l with
  | none => none
  | some rest =>
    match rest with
    | 's' :: rest2 =>
      if optS then
        match captureSeg rest2 with
        | some cap => some cap
        | none => captureSeg rest
      else captureSeg rest
    | _ => captureSeg rest

/-- `re.search` for the segment patterns: try every position from the
left, return the first capture. -/
def reSearchPat (stem : List Char) (optS : Bool) : List Char → Option (List Char)
  | [] => none
  | c :: t =>
    match reMatchAt stem optS (c :: t) with
    | some cap => some cap
    | none => reSearchPat stem optS t

def searchCapture (stem : String) (optS : Bool) (path : String) : Option String :=
  (reSearchPat stem.toList optS path.toList).map String.mk

/-- The `app_patterns` list of `_detect_by_directory_structure`
(stem, whether the pattern carries an `s?`). -/
def appPatterns : List (String × Bool) :=
  [ ("app", true), ("service", true), ("frontend", false), ("backend", false)
  , ("client", true), ("package", true), ("module", true), ("component", true)
  , ("feature", true), ("project", true) ]

/-- The `common_patterns` list of `_detect_common_components`. -/
def commonPatterns : List (String × Bool) :=
  [ ("common", false), ("shared", false), ("lib", true), ("util", true)
  , ("core", false), ("base", false), ("foundation", false)
  , ("component", true), ("package", true), ("module", true) ]

/-- First pattern in the list that matches the path (the Python inner
loop breaks at the first match). -/
def firstPatternCapture : List (String × Bool) → String → Option String
  | [], _ => none
  | (stem, optS) :: rest, path =>
    match searchCapture stem optS path with
    | some c => some c
    | none => firstPatternCapture rest path

/-- The `project_indicators` marker-file table of `_detect_projects`. -/
def projectIndicators : List (String × String) :=
  [ ("package.json", "nodejs"), ("requirements.txt", "python"), ("pom.xml", "java")
  , ("build.gradle", "java"), ("Cargo.toml", "rust"), ("go.mod", "go")
  , ("composer.json", "php"), ("Gemfile", "ruby"), ("Dockerfile", "docker")
  , ("docker-compose.yml", "docker"), ("Makefile", "make"), ("CMakeLists.txt", "cmake")
  , ("pubspec.yaml", "flutter"), ("angular.json", "angular"), ("vue.config.js", "vue")
  , ("next.config.js", "nextjs"), ("nuxt.config.js", "nuxt"), ("vite.config.js", "vite")
  , ("webpack.config.js", "webpack"), ("rollup.config.js", "rollup")
  , ("tsconfig.json", "typescript"), ("app.json", "react-native")
  , ("project.json", "nx"), ("workspace.json", "nx"), ("lerna.json", "lerna")
  , ("rush.json", "rush"), ("pnpm-workspace.yaml", "pnpm"), ("yarn.lock", "yarn")
  , ("package-lock.json", "npm") ]

/-- `MonorepoAnalyzer._extract_project_name`. -/
def extractProjectName (dirPath configFile : String) : String :=
  if dirPath = "." ∨ dirPath = "" then splitextBase configFile
  else baseName dirPath

/-- `MonorepoAnalyzer._is_substantial_project`. -/
def isSubstantialProject (dirPath : String) (allFiles : List String) : Bool :=
  let projectFiles := allFiles.filter (fun f => strStartsWith f dirPath)
  let sourceFiles := projectFiles.filter (fun f =>
    [".js", ".ts", ".jsx", ".tsx", ".py", ".java", ".go", ".rs", ".php", ".rb",
     ".cs", ".swift", ".kt"].any (fun e => strEndsWith f e))
  3 < sourceFiles.length
    || projectFiles.any (fun f =>
        [".json", ".yaml", ".yml", ".toml", ".xml"].any (fun e => strEndsWith f e))

/-- The marker-file pass of `_detect_projects`: group files by
directory (insertion-ordered), then register the first indicator hit
per directory.  Note the Python membership test compares the full
relative path of each file against the bare indicator filename. -/
def detectProjectsMarker (allFiles : List String) : List (String × ProjectInfo) :=
  let dirFiles := allFiles.foldl
    (fun acc f => updWith (dirName f) (fun l => l ++ [f]) [] acc) []
  dirFiles.foldl
    (fun projects df =>
      match df.2.find? (fun f => (alookup f projectIndicators).isSome) with
      | some fileName =>
        match alookup fileName projectIndicators with
        | some ptype =>
          let pname := extractProjectName df.1 fileName
          if keyMem projects pname then projects
          else projects ++ [(pname,
            { name := pname, path := df.1, type := ptype,
              files := df.2, size := df.2.length })]
        | none => projects
      | none => projects)
    []

/-- `MonorepoAnalyzer._detect_by_directory_structure`. -/
def detectByDirectoryStructure (allFiles : List String)
    (projects0 : List (String × ProjectInfo)) : List (String × ProjectInfo) :=
  allFiles.foldl
    (fun projects f =>
      match firstPatternCapture appPatterns f with
      | none => projects
      | some pname =>
        if keyMem projects pname then projects
        else
          let dirPath := dirName f
          if isSubstantialProject dirPath allFiles then
            projects ++ [(pname,
              { name := pname, path := dirPath, type := "app",
                files := allFiles.filter (fun x => strStartsWith x dirPath),
                size := (allFiles.filter (fun x => strStartsWith x dirPath)).length })]
          else projects)
    projects0

/-- `MonorepoAnalyzer._detect_projects`: marker pass, then the
directory-structure pass. -/
def detectProjects (allFiles : List String) : List (String × ProjectInfo) :=
  detectByDirectoryStructure allFiles (detectProjectsMarker allFiles)

/-- `MonorepoAnalyzer._detect_common_components`. -/
def detectCommonComponents (allFiles : List String) :
    List (String × CommonComponent) :=
  allFiles.foldl
    (fun comps f =>
      match firstPatternCapture commonPatterns f with
      | none => comps
      | some cname =>
        if keyMem comps cname then comps
        else
          let dirPath := dirName f
          comps ++ [(cname,
            { name := cname, path := dirPath,
              files := allFiles.filter (fun x => strStartsWith x dirPath) })])
    []

/-- The project/component detection entry point on a file list. -/
def detect (allFiles : List String) :
    List (String × ProjectInfo) × List (String × CommonComponent) :=
  (detectProjects allFiles, detectCommonComponents allFiles)

/-! ## package.json migration (`RepoSplitter._transform_package_json`, C7) -/

/-- JSON-like values, the manifest dictionary model. -/
inductive JVal where
  | jnull
  | jbool (b : Bool)
  | jnum (n : Int)
  | jstr (s : String)
  | jarr (elems : List JVal)
  | jobj (fields : List (String × JVal))

/-- Python truthiness on manifest values. -/
def truthy : JVal → Bool
  | .jnull => false
  | .jbool b => b
  | .jnum n => n ≠ 0
  | .jstr s => s ≠ ""
  | .jarr l => !l.isEmpty
  | .jobj l => !l.isEmpty

/-- `d.get(k) or default`. -/
def pyOr (v : Option JVal) (d : JVal) : JVal :=
  match v with
  | some x => if truthy x then x else d
  | none => d

/-- `d[k] = v`: replace in place, or append when absent. -/
def dictSet (k : String) (v : JVal) (l : List (String × JVal)) :
    List (String × JVal) :=
  updWith k (fun _ => v) v l

/-- `d.pop(k, None)`: remove the binding. -/
def dictErase (k : String) (l : List (String × JVal)) : List (String × JVal) :=
  l.filter (fun p => p.1 ≠ k)

/-- Substring test over character lists. -/
def containsList (pat : List Char) : List Char → Bool
  | [] => (stripPre pat ([] : List Char)).isSome
  | c :: t => (stripPre pat (c :: t)).isSome || containsList pat t

/-- Python `needle in container`: key membership on a dict, substring
on a string, element equality on a list (a non-string element simply
compares unequal); every other value raises `TypeError` because it is
not iterable.  (CPython words the message by type; the model keeps one
text per error site.) -/
def pyContains (needle : String) : JVal → Except String Bool
  | .jobj fields => .ok (fields.any (fun p => p.1 = needle))
  | .jstr s => .ok (containsList needle.toList s.toList)
  | .jarr elems =>
    .ok (elems.any (fun e => match e with | .jstr s => s = needle | _ => false))
  | _ => .error "TypeError: argument is not iterable"

/-- Python `container[k] = v`: in-place update on a dict; every other
value raises `TypeError` (string/list/number item assignment with a
string key). -/
def pySetItem (k : String) (v : JVal) : JVal → Except String JVal
  | .jobj fields => .ok (.jobj (dictSet k v fields))
  | _ => .error "TypeError: object does not support item assignment"

/-- `'tsconfig.json' in pkg.get('files', [])`: an absent `files` key
defaults to the empty list (no match); a present value is probed with
Python `in`, raising `TypeError` on non-container values such as a
number or an explicit `null`. -/
def filesHasTsconfig : Option JVal → Except String Bool
  | none => .ok false
  | some v => pyContains "tsconfig.json" v

/-- `pkg['name'] = pkg.get('name') or repo_name`. -/
def migrateName (repoName : String) (pkg : List (String × JVal)) :
    List (String × JVal) :=
  dictSet "name" (pyOr (alookup "name" pkg) (.jstr repoName)) pkg

/-- `if 'version' not in pkg: pkg['version'] = '1.0.0'`. -/
def migrateVersion (pkg : List (String × JVal)) : List (String × JVal) :=
  if (alookup "version" pkg).isSome then pkg
  else dictSet "version" (.jstr "1.0.0") pkg

/-- `pkg['repository'] = pkg.get('repository') or repo_meta`. -/
def migrateRepository (repoUrl : String) (pkg : List (String × JVal)) :
    List (String × JVal) :=
  dictSet "repository"
    (pyOr (alookup "repository" pkg)
      (.jobj [("type", .jstr "git"), ("url", .jstr repoUrl)])) pkg

/-- `pkg['homepage'] = pkg.get('homepage') or repo_url.replace('.git', '')`. -/
def migrateHomepage (repoUrl : String) (pkg : List (String × JVal)) :
    List (String × JVal) :=
  dictSet "homepage"
    (pyOr (alookup "homepage" pkg) (.jstr (pyReplace repoUrl ".git" ""))) pkg

/-- `if not is_library: (if 'private' not in pkg: pkg['private'] = False)`. -/
def migratePrivate (isLibrary : Bool) (pkg : List (String × JVal)) :
    List (String × JVal) :=
  if !isLibrary && (alookup "private" pkg).isNone then
    dictSet "private" (.jbool false) pkg
  else pkg

/-- The `scripts` fallback block: start from `pkg.get('scripts') or {}`
and add `test`/`build` entries when `in` reports them absent.  On a
truthy non-dict value Python's `in`/item-assignment semantics apply, so
the block raises `TypeError` where CPython would (a truthy string
containing both substrings passes through unchanged). -/
def buildScripts (pkg : List (String × JVal)) : Except String JVal :=
  let scripts := pyOr (alookup "scripts" pkg) (.jobj [])
  match pyContains "test" scripts with
  | .error e => .error e
  | .ok hasTest =>
    match (if hasTest then .ok scripts
      else pySetItem "test" (.jstr "echo \"No tests specified\" && exit 0") scripts :
        Except String JVal) with
    | .error e => .error e
    | .ok scripts2 =>
      match pyContains "build" scripts2 with
      | .error e => .error e
      | .ok hasBuild =>
        if hasBuild then .ok scripts2
        else
          match filesHasTsconfig (alookup "files" pkg) with
          | .error e => .error e
          | .ok cond =>
            if cond || truthy ((alookup "types" pkg).getD .jnull) then
              pySetItem "build" (.jstr "tsc -p .") scripts2
            else
              pySetItem "build" (.jstr "echo \"No build step\"") scripts2

/-- `pkg['scripts'] = scripts`, propagating a `TypeError` from the
scripts block. -/
def migrateScripts (pkg : List (String × JVal)) :
    Except String (List (String × JVal)) :=
  match buildScripts pkg with
  | .ok s => .ok (dictSet "scripts" s pkg)
  | .error e => .error e

/-- `if 'workspaces' in pkg: pkg.pop('workspaces', None)`. -/
def migrateWorkspaces (pkg : List (String × JVal)) : List (String × JVal) :=
  if (alookup "workspaces" pkg).isSome then dictErase "workspaces" pkg
  else pkg

/-- `RepoSplitter._transform_package_json`, returning the migrated
dictionary: the staged field rewrites above, applied in source order.
Non-dictionary input is treated as `{}` (the Python `isinstance`
guard combined with `copy.deepcopy`).  The function is partial: the
scripts block raises `TypeError` on some manifests, which the
embedding surfaces as `Except.error`. -/
def transformPackageJson (original : JVal) (repoName repoUrl : String)
    (isLibrary : Bool) : Except String (List (String × JVal)) :=
  let pkg := match original with | .jobj fields => fields | _ => []
  let pkg := migratePrivate isLibrary
    (migrateHomepage repoUrl
      (migrateRepository repoUrl
        (migrateVersion
          (migrateName repoName pkg))))
  match migrateScripts pkg with
  | .ok pkg2 => .ok (migrateWorkspaces pkg2)
  | .error e => .error e

/-! ## Critical-conflict gate (`RepoSplitter.analyze_monorepo`, C8) -/

/-- The analysis result triple computed (and persisted into the
analysis report) by `analyze_repository_structure` before the gate. -/
structure AnalysisState where
  projects : List (String × ProjectInfo)
  components : List (String × CommonComponent)
  conflicts : List DependencyConflict

def criticalConflicts (conflicts : List DependencyConflict) :
    List DependencyConflict :=
  conflicts.filter (fun c => c.severity = "critical")

/-- Outcome of `analyze_monorepo`: the analysis is produced in full
before the gate runs; the gate only decides whether the call returns
the pair or raises `ValueError`. -/
structure AnalyzeOutcome where
  analysis : AnalysisState
  result : Except String
    (List (String × ProjectInfo) × List (String × CommonComponent))

/-- The gate of `RepoSplitter.analyze_monorepo`:
`if critical_conflicts and not self.config.dry_run: if not self.config.force: raise ValueError(...)`. -/
def analyzeMonorepo (analysis : AnalysisState) (dryRun force : Bool) :
    AnalyzeOutcome :=
  let critical := criticalConflicts analysis.conflicts
  { analysis := analysis
    result :=
      if !critical.isEmpty && !dryRun then
        if !force then
          .error ("Critical dependency conflicts detected: "
            ++ toString critical.length ++ " conflicts")
        else .ok (analysis.projects, analysis.components)
      else .ok (analysis.projects, analysis.components) }

/-! ## GitHub repository creation under dry-run
(`RepoSplitter._create_repo_github`, C9) -/

/-- Remote mutations that the live (non-dry-run) path may perform. -/
inductive RemoteAction where
  | createRepo (org name : String)

/-- `RepoSplitter._create_repo_github`: the name is sanitized first;
under dry-run the function returns the synthesized clone URL
immediately, performing no remote action.  The live path is abstracted
by `live`, which receives the sanitized name. -/
def createRepoGithub (dryRun : Bool) (org : String)
    (live : String → Option String × List RemoteAction) (repoName : String) :
    Option String × List RemoteAction :=
  let name := sanitizeRepoName repoName
  if dryRun then
    (some ("https://github.com/" ++ org ++ "/" ++ name ++ ".git"), [])
  else live name

/-! ## Dictionary lemmas -/

theorem alookup_updWith_self {α : Type} (k : String) (f : α → α) (init : α) :
    ∀ l : List (String × α),
      alookup k (updWith k f init l) = some (f ((alookup k l).getD init))
  | [] => by simp [updWith, alookup]
  | (k', v) :: rest => by
    by_cases h : k' = k
    · subst h
      simp [updWith, alookup]
    · simp only [updWith, if_neg h, alookup, alookup_updWith_self k f init rest]

theorem alookup_updWith_ne {α : Type} {k k2 : String} (h : k ≠ k2) (f : α → α)
    (init : α) : ∀ l : List (String × α),
      alookup k2 (updWith k f init l) = alookup k2 l
  | [] => by simp [updWith, alookup, h]
  | (k', v) :: rest => by
    by_cases h' : k' = k
    · subst h'
      simp [updWith, alookup, h]
    · simp only [updWith, if_neg h', alookup, alookup_updWith_ne h f init rest]

theorem alookup_eq_none_of_not_mem {α : Type} {k : String} :
    ∀ {l : List (String × α)}, k ∉ l.map Prod.fst → alookup k l = none
  | [], _ => rfl
  | (k', v) :: rest, h => by
    simp only [List.map_cons, List.mem_cons, not_or] at h
    show (if k' = k then some v else alookup k rest) = none
    rw [if_neg (fun e : k' = k => h.1 e.symm), alookup_eq_none_of_not_mem h.2]

theorem alookup_eq_some_of_mem {α : Type} {k : String} {v : α} :
    ∀ {l : List (String × α)}, (l.map Prod.fst).Nodup → (k, v) ∈ l →
      alookup k l = some v
  | (k', v') :: rest, hnd, hm => by
    have hnd1 := List.nodup_cons.1 hnd
    rcases List.mem_cons.1 hm with h | h
    · injection h with h1 h2
      subst h1
      subst h2
      simp [alookup]
    · have hk' : k' ≠ k := by
        intro e
        subst e
        exact hnd1.1 (List.mem_map.2 ⟨(k', v), h, rfl⟩)
      simp only [alookup, if_neg hk']
      exact alookup_eq_some_of_mem hnd1.2 h

theorem fst_updWith {α : Type} (k : String) (f : α → α) (init : α) :
    ∀ l : List (String × α),
      (updWith k f init l).map Prod.fst =
        if k ∈ l.map Prod.fst then l.map Prod.fst else l.map Prod.fst ++ [k]
  | [] => by simp [updWith]
  | (k', v) :: rest => by
    by_cases h : k' = k
    · subst h
      simp [updWith]
    · have hne : ¬k = k' := fun e => h e.symm
      simp only [updWith, if_neg h, List.map_cons, fst_updWith k f init rest,
        List.mem_cons, hne, false_or]
      by_cases hmem : k ∈ rest.map Prod.fst
      · simp [hmem]
      · simp [hmem]

theorem nodup_updWith {α : Type} (k : String) (f : α → α) (init : α)
    {l : List (String × α)} (h : (l.map Prod.fst).Nodup) :
    ((updWith k f init l).map Prod.fst).Nodup := by
  rw [fst_updWith]
  by_cases hmem : k ∈ l.map Prod.fst
  · simpa [hmem] using h
  · rw [if_neg hmem]
    exact List.nodup_append.2 ⟨h, List.nodup_singleton k,
      fun x hx hx1 => hmem ((List.mem_singleton.1 hx1) ▸ hx)⟩

/-- A fold preserves any invariant preserved by each step. -/
theorem foldl_preserves {α β : Type} (P : α → Prop) {f : α → β → α}
    (h : ∀ a b, P a → P (f a b)) :
    ∀ (xs : List β) (a : α), P a → P (xs.foldl f a)
  | [], _, ha => ha
  | x :: xs, a, ha => foldl_preserves P h xs (f a x) (h a x ha)

/-- The version-collection dictionary has pairwise distinct dependency
names. -/
theorem nodup_buildDependencyVersions (details : List (String × List DependencyInfo)) :
    ((buildDependencyVersions details).map Prod.fst).Nodup := by
  unfold buildDependencyVersions
  refine foldl_preserves
    (fun acc : List (String × List (String × String)) => (acc.map Prod.fst).Nodup)
    (fun acc pd hacc => ?_) details [] List.nodup_nil
  refine foldl_preserves
    (fun acc : List (String × List (String × String)) => (acc.map Prod.fst).Nodup)
    (fun acc2 dep hacc2 => ?_) pd.2 acc hacc
  rcases hdv : dep.version with _ | v
  · exact hacc2
  · by_cases hv : v ≠ ""
    · simpa [hv] using nodup_updWith _ _ _ hacc2
    · simpa [hv] using hacc2

/-- The shared-dependency dictionary has pairwise distinct dependency
names. -/
theorem nodup_buildSharedDeps (details : List (String × List DependencyInfo)) :
    ((buildSharedDeps details).map Prod.fst).Nodup := by
  unfold buildSharedDeps
  refine foldl_preserves
    (fun acc : List (String × List String) => (acc.map Prod.fst).Nodup)
    (fun acc pd hacc => ?_) details [] List.nodup_nil
  refine foldl_preserves
    (fun acc : List (String × List String) => (acc.map Prod.fst).Nodup)
    (fun acc2 dep hacc2 => ?_) pd.2 acc hacc
  exact nodup_updWith _ _ _ hacc2

/-! ## Counting emissions of an assoc-list driven detector -/

/-- Generic counting lemma: a detector that walks an insertion-ordered
dictionary with pairwise-distinct keys and emits at most one conflict
per entry, tagging the conflict's `target_project` with the entry key,
emits exactly one conflict for a present key whose entry passes the
emission test, and none otherwise. -/
theorem countP_filterMap_emit {β : Type}
    (emit : String × β → Option DependencyConflict)
    (hemit : ∀ nv c, emit nv = some c → c.target_project = nv.1)
    (name : String) :
    ∀ {l : List (String × β)}, (l.map Prod.fst).Nodup →
      ((l.filterMap emit).countP (fun c => decide (c.target_project = name))) =
        (match alookup name l with
         | some vs =>
           match emit (name, vs) with
           | some _ => 1
           | none => 0
         | none => 0)
  | [], _ => rfl
  | (k, v) :: rest, hnd => by
    have hnd1 := List.nodup_cons.1 hnd
    have hnd' : (rest.map Prod.fst).Nodup := hnd1.2
    have hknotin : k ∉ rest.map Prod.fst := hnd1.1
    rw [List.filterMap_cons]
    by_cases hk : k = name
    · have hl : alookup name ((k, v) :: rest) = some v := by
        simp [alookup, hk]
      have hrest : alookup name rest = none :=
        alookup_eq_none_of_not_mem (hk ▸ hknotin)
      have hrest0 : ((rest.filterMap emit).countP
          (fun c => decide (c.target_project = name))) = 0 := by
        rw [countP_filterMap_emit emit hemit name hnd', hrest]
      have hev : emit (name, v) = emit (k, v) := by rw [hk]
      cases he : emit (k, v) with
      | none =>
        simp only [hl, hev, he]
        exact hrest0
      | some c =>
        simp only [hl, hev, he, List.countP_cons, hrest0]
        simp [hemit (k, v) c he, hk]
    · have hl : alookup name ((k, v) :: rest) = alookup name rest := by
        simp [alookup, hk]
      cases he : emit (k, v) with
      | none =>
        simp only [hl, he]
        exact countP_filterMap_emit emit hemit name hnd'
      | some c =>
        simp only [hl, he, List.countP_cons,
          countP_filterMap_emit emit hemit name hnd']
        simp [hemit (k, v) c he, hk]

/-! ## Frame lemmas for the package.json migration -/

theorem alookup_dictSet_ne {kset klook : String} (h : klook ≠ kset) (v : JVal)
    (l : List (String × JVal)) : alookup klook (dictSet kset v l) = alookup klook l :=
  alookup_updWith_ne (Ne.symm h) _ _ l

theorem alookup_dictErase_self (k : String) :
    ∀ l : List (String × JVal), alookup k (dictErase k l) = none
  | [] => rfl
  | (k', v) :: rest => by
    by_cases h : k' = k
    · subst h
      have hstep : dictErase k' ((k', v) :: rest) = dictErase k' rest := by
        simp [dictErase, List.filter_cons]
      rw [hstep]
      exact alookup_dictErase_self k' rest
    · have hstep : dictErase k ((k', v) :: rest) = (k', v) :: dictErase k rest := by
        simp [dictErase, List.filter_cons, h]
      rw [hstep]
      show (if k' = k then some v else alookup k (dictErase k rest)) = none
      rw [if_neg h]
      exact alookup_dictErase_self k rest

theorem alookup_dictErase_ne {kdel klook : String} (h : klook ≠ kdel) :
    ∀ l : List (String × JVal), alookup klook (dictErase kdel l) = alookup klook l
  | [] => rfl
  | (k', v) :: rest => by
    by_cases hk : k' = kdel
    · subst hk
      have hstep : dictErase k' ((k', v) :: rest) = dictErase k' rest := by
        simp [dictErase, List.filter_cons]
      rw [hstep]
      show alookup klook (dictErase k' rest) =
        (if k' = klook then some v else alookup klook rest)
      rw [if_neg (fun e : k' = klook => h (e ▸ rfl))]
      exact alookup_dictErase_ne h rest
    · have hstep : dictErase kdel ((k', v) :: rest) = (k', v) :: dictErase kdel rest := by
        simp [dictErase, List.filter_cons, hk]
      rw [hstep]
      show (if k' = klook then some v else alookup klook (dictErase kdel rest)) =
        (if k' = klook then some v else alookup klook rest)
      by_cases hkl : k' = klook
      · rw [if_pos hkl, if_pos hkl]
      · rw [if_neg hkl, if_neg hkl]
        exact alookup_dictErase_ne h rest

theorem migrateName_frame (rn : String) {k : String} (h : k ≠ "name")
    (pkg : List (String × JVal)) : alookup k (migrateName rn pkg) = alookup k pkg :=
  alookup_dictSet_ne h _ pkg

theorem migrateVersion_frame {k : String} (h : k ≠ "version")
    (pkg : List (String × JVal)) : alookup k (migrateVersion pkg) = alookup k pkg := by
  unfold migrateVersion
  split
  · rfl
  · exact alookup_dictSet_ne h _ pkg

theorem migrateRepository_frame (ru : String) {k : String} (h : k ≠ "repository")
    (pkg : List (String × JVal)) : alookup k (migrateRepository ru pkg) = alookup k pkg :=
  alookup_dictSet_ne h _ pkg

theorem migrateHomepage_frame (ru : String) {k : String} (h : k ≠ "homepage")
    (pkg : List (String × JVal)) : alookup k (migrateHomepage ru pkg) = alookup k pkg :=
  alookup_dictSet_ne h _ pkg

theorem migratePrivate_frame (lib : Bool) {k : String} (h : k ≠ "private")
    (pkg : List (String × JVal)) : alookup k (migratePrivate lib pkg) = alookup k pkg := by
  unfold migratePrivate
  split
  · exact alookup_dictSet_ne h _ pkg
  · rfl

theorem migrateScripts_frame {k : String} (h : k ≠ "scripts")
    {pkg out : List (String × JVal)} (hm : migrateScripts pkg = .ok out) :
    alookup k out = alookup k pkg := by
  unfold migrateScripts at hm
  cases hb : buildScripts pkg with
  | ok s =>
    rw [hb] at hm
    cases Except.ok.inj hm
    exact alookup_dictSet_ne h _ pkg
  | error e =>
    rw [hb] at hm
    exact Except.noConfusion hm

theorem migrateWorkspaces_frame {k : String} (h : k ≠ "workspaces")
    (pkg : List (String × JVal)) : alookup k (migrateWorkspaces pkg) = alookup k pkg := by
  unfold migrateWorkspaces
  split
  · exact alookup_dictErase_ne h pkg
  · rfl

/-- After the workspaces clean-up, the `workspaces` key is always
absent. -/
theorem migrateWorkspaces_none (pkg : List (String × JVal)) :
    alookup "workspaces" (migrateWorkspaces pkg) = none := by
  unfold migrateWorkspaces
  by_cases h : (alookup "workspaces" pkg).isSome = true
  · rw [if_pos h]
    exact alookup_dictErase_self _ pkg
  · rw [if_neg h]
    cases he : alookup "workspaces" pkg with
    | none => rfl
    | some v => exact absurd (he ▸ rfl) h

/-- A present version is never overwritten. -/
theorem migrateVersion_keep {pkg : List (String × JVal)} {v : JVal}
    (hv : alookup "version" pkg = some v) : migrateVersion pkg = pkg := by
  unfold migrateVersion
  rw [hv]
  rfl

/-! ## Counting lemmas for `_detect_missing_dependencies` -/

/-- Inner loop: no conflict with source `P` is emitted by a project
named differently. -/
theorem missing_inner_zero_src (univ : List (String × ProjectInfo))
    (pname P Q : String) (hne : pname ≠ P) (deps : List String) :
    ((deps.filterMap (fun dep =>
        if keyMem univ dep ∧ dep ≠ pname then some (mkMissingConflict pname dep)
        else none)).countP
      (fun c => decide (c.source_project = P ∧ c.target_project = Q))) = 0 := by
  rw [List.countP_eq_zero]
  intro c hc
  rcases List.mem_filterMap.1 hc with ⟨dep, _, he⟩
  by_cases hcond : keyMem univ dep ∧ dep ≠ pname
  · rw [if_pos hcond] at he
    cases Option.some.inj he
    simp [mkMissingConflict, hne]
  · rw [if_neg hcond] at he
    exact absurd he (by simp)

/-- Inner loop: no conflict with target `Q` is emitted from a
dependency list not containing `Q`. -/
theorem missing_inner_zero_tgt (univ : List (String × ProjectInfo))
    (pname P Q : String) {deps : List String} (hQ : Q ∉ deps) :
    ((deps.filterMap (fun dep =>
        if keyMem univ dep ∧ dep ≠ pname then some (mkMissingConflict pname dep)
        else none)).countP
      (fun c => decide (c.source_project = P ∧ c.target_project = Q))) = 0 := by
  rw [List.countP_eq_zero]
  intro c hc
  rcases List.mem_filterMap.1 hc with ⟨dep, hdep, he⟩
  by_cases hcond : keyMem univ dep ∧ dep ≠ pname
  · rw [if_pos hcond] at he
    cases Option.some.inj he
    have hdQ : dep ≠ Q := fun e => hQ (e ▸ hdep)
    simp [mkMissingConflict, hdQ]
  · rw [if_neg hcond] at he
    exact absurd he (by simp)

/-- Inner loop of the project named `P`: exactly one conflict for the
pair `(P, Q)` when `Q` occurs in the (duplicate-free) dependency list,
names a known project, and is not `P` itself; none otherwise. -/
theorem missing_inner_count (univ : List (String × ProjectInfo)) (P Q : String) :
    ∀ {deps : List String}, deps.Nodup →
      ((deps.filterMap (fun dep =>
          if keyMem univ dep ∧ dep ≠ P then some (mkMissingConflict P dep)
          else none)).countP
        (fun c => decide (c.source_project = P ∧ c.target_project = Q))) =
      if Q ∈ deps ∧ keyMem univ Q = true ∧ Q ≠ P then 1 else 0
  | [], _ => by simp
  | d :: ds, hnd => by
    have hnd1 := List.nodup_cons.1 hnd
    rw [List.filterMap_cons]
    by_cases hcond : keyMem univ d ∧ d ≠ P
    · rw [if_pos hcond, List.countP_cons]
      by_cases hdQ : d = Q
      · subst hdQ
        rw [missing_inner_zero_tgt univ P P d hnd1.1]
        rw [if_pos (show d ∈ d :: ds ∧ keyMem univ d = true ∧ d ≠ P from
          ⟨List.mem_cons_self d ds, hcond.1, hcond.2⟩)]
        simp [mkMissingConflict]
      · rw [missing_inner_count univ P Q hnd1.2]
        have hQd : ¬(Q = d) := fun e => hdQ e.symm
        have hiff : (Q ∈ ds ∧ keyMem univ Q = true ∧ Q ≠ P) ↔
            (Q ∈ d :: ds ∧ keyMem univ Q = true ∧ Q ≠ P) := by
          simp [List.mem_cons, hQd]
        rw [if_congr hiff rfl rfl]
        simp [mkMissingConflict, hdQ]
    · rw [if_neg hcond, missing_inner_count univ P Q hnd1.2]
      by_cases hdQ : d = Q
      · subst hdQ
        rw [if_neg (fun hx : d ∈ ds ∧ keyMem univ d = true ∧ d ≠ P =>
              hcond ⟨hx.2.1, hx.2.2⟩),
            if_neg (fun hx : d ∈ d :: ds ∧ keyMem univ d = true ∧ d ≠ P =>
              hcond ⟨hx.2.1, hx.2.2⟩)]
      · have hQd : ¬(Q = d) := fun e => hdQ e.symm
        have hiff : (Q ∈ ds ∧ keyMem univ Q = true ∧ Q ≠ P) ↔
            (Q ∈ d :: ds ∧ keyMem univ Q = true ∧ Q ≠ P) := by
          simp [List.mem_cons, hQd]
        rw [if_congr hiff rfl rfl]

/-- Outer loop: projects other than `P` contribute no `(P, Q)`
conflict. -/
theorem missing_outer_zero (univ : List (String × ProjectInfo)) (P Q : String) :
    ∀ {ps : List (String × ProjectInfo)}, P ∉ ps.map Prod.fst →
      ((ps.flatMap (fun pp => pp.2.dependencies.filterMap (fun dep =>
          if keyMem univ dep ∧ dep ≠ pp.1 then some (mkMissingConflict pp.1 dep)
          else none))).countP
        (fun c => decide (c.source_project = P ∧ c.target_project = Q))) = 0 := by
  intro ps hP
  rw [List.countP_eq_zero]
  intro c hc
  rcases List.mem_flatMap.1 hc with ⟨pp, hpp, hcin⟩
  rcases List.mem_filterMap.1 hcin with ⟨dep, _, he⟩
  by_cases hcond : keyMem univ dep ∧ dep ≠ pp.1
  · rw [if_pos hcond] at he
    cases Option.some.inj he
    have hne : pp.1 ≠ P := by
      intro e
      exact hP (e ▸ List.mem_map.2 ⟨pp, hpp, rfl⟩)
    simp [mkMissingConflict, hne]
  · rw [if_neg hcond] at he
    exact absurd he (by simp)

/-- Full count for `_detect_missing_dependencies` over a project
dictionary with pairwise-distinct names. -/
theorem missing_count (univ : List (String × ProjectInfo)) (P Q : String)
    (proj : ProjectInfo) :
    ∀ {ps : List (String × ProjectInfo)}, (ps.map Prod.fst).Nodup →
      alookup P ps = some proj → proj.dependencies.Nodup →
      ((ps.flatMap (fun pp => pp.2.dependencies.filterMap (fun dep =>
          if keyMem univ dep ∧ dep ≠ pp.1 then some (mkMissingConflict pp.1 dep)
          else none))).countP
        (fun c => decide (c.source_project = P ∧ c.target_project = Q))) =
      if Q ∈ proj.dependencies ∧ keyMem univ Q = true ∧ Q ≠ P then 1 else 0
  | [], _, hP, _ => by simp [alookup] at hP
  | (k, pi) :: rest, hnd, hP, hdeps => by
    have hnd1 := List.nodup_cons.1 hnd
    rw [List.flatMap_cons, List.countP_append]
    by_cases hk : k = P
    · have hpi : pi = proj := by
        have : alookup P ((k, pi) :: rest) = some pi := by simp [alookup, hk]
        exact Option.some.inj (this.symm.trans hP)
      subst hpi
      rw [show k = P from hk] at hnd1 ⊢
      rw [missing_inner_count univ P Q hdeps,
          missing_outer_zero univ P Q hnd1.1]
      simp
    · have hP' : alookup P rest = some proj := by
        have : alookup P ((k, pi) :: rest) = alookup P rest := by simp [alookup, hk]
        exact this.symm.trans hP
      rw [missing_inner_zero_src univ k P Q hk pi.dependencies,
          missing_count univ P Q proj hnd1.2 hP' hdeps]
      simp

/-! ## Concrete scenarios used by the claim theorems -/

/-- Three projects forming the dependency cycle A→B→C→A. -/
def cycleProjects : List (String × ProjectInfo) :=
  [ ("A", { name := "A", path := "apps/A", type := "nodejs", dependencies := ["B"] })
  , ("B", { name := "B", path := "apps/B", type := "nodejs", dependencies := ["C"] })
  , ("C", { name := "C", path := "apps/C", type := "nodejs", dependencies := ["A"] }) ]

/-- Three projects forming the acyclic chain A→B→C. -/
def chainProjects : List (String × ProjectInfo) :=
  [ ("A", { name := "A", path := "apps/A", type := "nodejs", dependencies := ["B"] })
  , ("B", { name := "B", path := "apps/B", type := "nodejs", dependencies := ["C"] })
  , ("C", { name := "C", path := "apps/C", type := "nodejs", dependencies := [] }) ]

/-- One manifest record named `n` with version `v`. -/
def mkRecord (n : String) (p : String) (v : Option String) : DependencyInfo :=
  { name := n, source := "package.json", project_path := p, version := v }

/-- Two manifest records for `react` with clashing versions. -/
def reactDetails : List (String × List DependencyInfo) :=
  [ ("frontend", [mkRecord "react" "apps/frontend" (some "18.0.0")])
  , ("backend", [mkRecord "react" "apps/backend" (some "17.0.0")]) ]

/-- Two manifest records sharing the dependency `lodash`. -/
def lodashDetails : List (String × List DependencyInfo) :=
  [ ("frontend", [mkRecord "lodash" "apps/frontend" (some "4.17.21")])
  , ("backend", [mkRecord "lodash" "apps/backend" (some "4.17.21")]) ]

/-- A single project that lists its own name as a dependency. -/
def selfDepProjects : List (String × ProjectInfo) :=
  [("P", { name := "P", path := "p", type := "nodejs", dependencies := ["P"] })]

/-- A self-dependency next to a genuine internal dependency. -/
def selfAndOtherProjects : List (String × ProjectInfo) :=
  [ ("P", { name := "P", path := "p", type := "nodejs", dependencies := ["P", "Q"] })
  , ("Q", { name := "Q", path := "q", type := "nodejs" }) ]

/-- The same file set in two iteration orders; the two directories
produce the same inferred project name `foo`. -/
def filesPermA : List String := ["apps/foo/x.json", "services/foo/y.json"]

def filesPermB : List String := ["services/foo/y.json", "apps/foo/x.json"]

/-- A manifest with a pinned version, an ungoverned field and a
workspaces declaration. -/
def pkgWitness : List (String × JVal) :=
  [ ("version", .jstr "0.9.0"), ("author", .jstr "me"), ("workspaces", .jarr []) ]

/-- A manifest whose `scripts` value is a truthy string without a
`test` substring: `scripts['test'] = ...` raises `TypeError` in
Python. -/
def pkgBadScripts : List (String × JVal) :=
  [ ("author", .jstr "me"), ("scripts", .jstr "x") ]

/-- From the claim's words: every non-null version string recorded for
`name` across the `DependencyInfo` records of all projects. -/
def recordedVersions (details : List (String × List DependencyInfo))
    (name : String) : List String :=
  details.flatMap (fun pd => pd.2.filterMap (fun dep =>
    if dep.name = name then dep.version else none))

/-- From the claim's words: the projects in whose records `name`
appears with a non-null version. -/
def projectsWithVersion (details : List (String × List DependencyInfo))
    (name : String) : List String :=
  (details.filter (fun pd =>
    pd.2.any (fun dep => dep.name = name && dep.version.isSome))).map Prod.fst

/-- Project P declares react 1.0.0 and then react 2.0.0 (e.g. in
`dependencies` and `peerDependencies`); project Q declares react
2.0.0. -/
def reactDupDetails : List (String × List DependencyInfo) :=
  [ ("P", [mkRecord "react" "p" (some "1.0.0"), mkRecord "react" "p" (some "2.0.0")])
  , ("Q", [mkRecord "react" "q" (some "2.0.0")]) ]

/-- An analysis carrying exactly one critical conflict. -/
def oneCriticalAnalysis : AnalysisState :=
  { projects := [], components := [], conflicts := [mkMissingConflict "a" "b"] }

/-! ## Claim theorems -/

/-- C1: on the graph built from `Project.dependencies` restricted to
known projects, the cycle A→B→C→A produces exactly one
`circular_dependency` conflict of severity `critical` describing the
ordered cycle, and the acyclic chain A→B→C produces none. -/
theorem circular_dependency_cycle_and_chain :
    detectCircularDependencies cycleProjects =
      [{ source_project := "circular", target_project := "A->B->C->A",
         conflict_type := "circular_dependency",
         description := "Circular dependency detected: A -> B -> C -> A",
         severity := "critical",
         resolution_suggestions :=
           [ "Extract shared functionality to a common component"
           , "Refactor to break the circular dependency"
           , "Use dependency injection or interfaces"
           , "Consider merging the circularly dependent projects" ] }]
    ∧ detectCircularDependencies chainProjects = [] := by
  decide

/-- C2 counterexample: `react` appears with a non-null version in the
records of two projects and with two distinct version strings across
the records, yet `_detect_version_conflicts` emits nothing, because the
collection keeps only the last version per project. -/
theorem version_mismatch_counterexample :
    2 ≤ (projectsWithVersion reactDupDetails "react").length
    ∧ 1 < (recordedVersions reactDupDetails "react").dedup.length
    ∧ detectVersionConflicts reactDupDetails = [] := by
  decide

/-- C2 (amended): collect for each project the version of its last
record of the name with a truthy (non-null and non-empty) version;
exactly one `version_mismatch` conflict is emitted precisely when this
per-project version dictionary holds more than one distinct version
string, and none otherwise; every emitted conflict has type
`version_mismatch` and severity `high`. -/
theorem version_mismatch_exactly_one (details : List (String × List DependencyInfo))
    (name : String) :
    ((detectVersionConflicts details).countP
        (fun c => decide (c.target_project = name))) =
      (match alookup name (buildDependencyVersions details) with
       | some versions => if 1 < (versions.map Prod.snd).dedup.length then 1 else 0
       | none => 0)
    ∧ (∀ c ∈ detectVersionConflicts details,
        c.conflict_type = "version_mismatch" ∧ c.severity = "high") := by
  constructor
  · have hemit : ∀ (nv : String × List (String × String)) (c : DependencyConflict),
        (if 1 < (nv.2.map Prod.snd).dedup.length then some (mkVersionConflict nv.1 nv.2)
         else none) = some c →
        c.target_project = nv.1 := by
      intro nv c he
      by_cases h : 1 < (nv.2.map Prod.snd).dedup.length
      · rw [if_pos h] at he
        cases Option.some.inj he
        rfl
      · rw [if_neg h] at he
        exact absurd he (by simp)
    unfold detectVersionConflicts
    refine (countP_filterMap_emit _ hemit name (nodup_buildDependencyVersions details)).trans ?_
    cases halk : alookup name (buildDependencyVersions details) with
    | none => rfl
    | some vs =>
      by_cases hc : 1 < (vs.map Prod.snd).dedup.length
      · simp [hc]
      · simp [hc]
  · intro c hc
    unfold detectVersionConflicts at hc
    rcases List.mem_filterMap.1 hc with ⟨nv, _, he⟩
    by_cases h : 1 < (nv.2.map Prod.snd).dedup.length
    · rw [if_pos h] at he
      cases Option.some.inj he
      exact ⟨rfl, rfl⟩
    · rw [if_neg h] at he
      exact absurd he (by simp)

/-- C2 witness: the react 18.0.0/17.0.0 clash yields exactly one
conflict for `react`, and its severity is `high`. -/
theorem version_mismatch_exactly_one_witness :
    ((detectVersionConflicts reactDetails).countP
        (fun c => decide (c.target_project = "react"))) = 1
    ∧ (mkVersionConflict "react" [("frontend", "18.0.0"), ("backend", "17.0.0")]).severity
        = "high" :=
  ⟨(version_mismatch_exactly_one reactDetails "react").1.trans (by decide),
   ((version_mismatch_exactly_one reactDetails "react").2
      (mkVersionConflict "react" [("frontend", "18.0.0"), ("backend", "17.0.0")])
      (by decide)).2⟩

/-- C3 counterexample: a project whose own name occurs in its
dependency list is a pair (P, P) with P.name ∈ P.dependencies between
detected projects, yet `_detect_missing_dependencies` emits nothing. -/
theorem missing_dependency_self_counterexample :
    keyMem selfDepProjects "P" = true
    ∧ (∃ proj, alookup "P" selfDepProjects = some proj ∧ "P" ∈ proj.dependencies)
    ∧ detectMissingDependencies selfDepProjects = [] :=
  ⟨by decide, ⟨{ name := "P", path := "p", type := "nodejs", dependencies := ["P"] },
    rfl, by decide⟩, by decide⟩

/-- C3 (amended to distinct pairs): for every pair of distinct detected
projects (P, Q) with Q in the (duplicate-free) dependency list of P,
exactly one conflict with source P and target Q is emitted, and every
emitted conflict has type `missing_dependency` and severity
`critical`. -/
theorem missing_dependency_exactly_one (projects : List (String × ProjectInfo))
    (P Q : String) (proj : ProjectInfo)
    (hnd : (projects.map Prod.fst).Nodup)
    (hP : alookup P projects = some proj)
    (hdeps : proj.dependencies.Nodup)
    (hmem : Q ∈ proj.dependencies)
    (hQ : keyMem projects Q = true)
    (hQP : Q ≠ P) :
    ((detectMissingDependencies projects).countP
      (fun c => decide (c.source_project = P ∧ c.target_project = Q))) = 1
    ∧ (∀ c ∈ detectMissingDependencies projects,
        c.conflict_type = "missing_dependency" ∧ c.severity = "critical") := by
  constructor
  · unfold detectMissingDependencies
    rw [missing_count projects P Q proj hnd hP hdeps, if_pos ⟨hmem, hQ, hQP⟩]
  · intro c hc
    unfold detectMissingDependencies at hc
    rcases List.mem_flatMap.1 hc with ⟨pp, _, hcin⟩
    rcases List.mem_filterMap.1 hcin with ⟨dep, _, he⟩
    by_cases hcond : keyMem projects dep ∧ dep ≠ pp.1
    · rw [if_pos hcond] at he
      cases Option.some.inj he
      exact ⟨rfl, rfl⟩
    · rw [if_neg hcond] at he
      exact absurd he (by simp)

/-- C3 witness: in `selfAndOtherProjects`, the pair (P, Q) yields
exactly one `missing_dependency` conflict. -/
theorem missing_dependency_exactly_one_witness :
    ((detectMissingDependencies selfAndOtherProjects).countP
      (fun c => decide (c.source_project = "P" ∧ c.target_project = "Q"))) = 1 :=
  (missing_dependency_exactly_one selfAndOtherProjects "P" "Q"
    { name := "P", path := "p", type := "nodejs", dependencies := ["P", "Q"] }
    (by decide) rfl (by decide) (by decide) (by decide) (by decide)).1

/-- C4 counterexample: the same two-file set scanned in its two
iteration orders yields different detection results (the chosen `path`
and `files` of project `foo` differ), so detection is not
order-independent. -/
theorem detection_order_counterexample :
    detect filesPermA ≠ detect filesPermB := by
  decide

/-- C4 (amended): detection depends on the file-list iteration order:
a name tie between two directories is won by the first match in the
order actually given (the os.walk order), not in a lexicographically
sorted order — `apps/foo` wins in one order, `services/foo` in the
other. -/
theorem detection_order_dependent :
    detect filesPermA =
      ([("foo", { name := "foo", path := "apps/foo", type := "app",
                  files := ["apps/foo/x.json"], size := 1 })], [])
    ∧ detect filesPermB =
      ([("foo", { name := "foo", path := "services/foo", type := "app",
                  files := ["services/foo/y.json"], size := 1 })], []) := by
  decide

/-- C5: `_sanitize_repo_name` is idempotent on every string, and maps
the empty and the all-whitespace string to the literal `"repo"`. -/
theorem sanitize_repo_name_idempotent_total :
    (∀ s : String, sanitizeRepoName (sanitizeRepoName s) = sanitizeRepoName s)
    ∧ sanitizeRepoName "" = "repo"
    ∧ sanitizeRepoName "   " = "repo" :=
  ⟨sanitizeRepoName_idem, by decide, by decide⟩

/-- C6: for every dependency name, `_detect_shared_dependencies` emits
exactly one `shared_dependency` conflict precisely when more than one
project references the name in its manifest records, and none
otherwise; every emitted conflict has severity `medium` and its
description is the template listing exactly the referencing
projects. -/
theorem shared_dependency_exactly_one (details : List (String × List DependencyInfo))
    (name : String) :
    ((detectSharedDependencies details).countP
        (fun c => decide (c.target_project = name))) =
      (match alookup name (buildSharedDeps details) with
       | some ps => if 1 < ps.length then 1 else 0
       | none => 0)
    ∧ (∀ c ∈ detectSharedDependencies details,
        c.conflict_type = "shared_dependency" ∧ c.severity = "medium" ∧
          ∃ nm ps, alookup nm (buildSharedDeps details) = some ps ∧ 1 < ps.length ∧
            c = mkSharedConflict nm ps) := by
  constructor
  · have hemit : ∀ (np : String × List String) (c : DependencyConflict),
        (if 1 < np.2.length then some (mkSharedConflict np.1 np.2) else none) = some c →
        c.target_project = np.1 := by
      intro np c he
      by_cases h : 1 < np.2.length
      · rw [if_pos h] at he
        cases Option.some.inj he
        rfl
      · rw [if_neg h] at he
        exact absurd he (by simp)
    unfold detectSharedDependencies
    refine (countP_filterMap_emit _ hemit name (nodup_buildSharedDeps details)).trans ?_
    cases halk : alookup name (buildSharedDeps details) with
    | none => rfl
    | some ps =>
      by_cases hc : 1 < ps.length
      · simp [hc]
      · simp [hc]
  · intro c hc
    unfold detectSharedDependencies at hc
    rcases List.mem_filterMap.1 hc with ⟨np, hnp, he⟩
    by_cases h : 1 < np.2.length
    · rw [if_pos h] at he
      cases Option.some.inj he
      refine ⟨rfl, rfl, np.1, np.2, ?_, h, rfl⟩
      refine alookup_eq_some_of_mem (nodup_buildSharedDeps details) ?_
      rw [Prod.mk.eta]
      exact hnp
    · rw [if_neg h] at he
      exact absurd he (by simp)

/-- C6 witness: `lodash` referenced by two projects yields exactly one
conflict, and its severity is `medium`. -/
theorem shared_dependency_exactly_one_witness :
    ((detectSharedDependencies lodashDetails).countP
        (fun c => decide (c.target_project = "lodash"))) = 1
    ∧ (mkSharedConflict "lodash" ["frontend", "backend"]).severity = "medium" :=
  ⟨(shared_dependency_exactly_one lodashDetails "lodash").1.trans (by decide),
   ((shared_dependency_exactly_one lodashDetails "lodash").2
      (mkSharedConflict "lodash" ["frontend", "backend"]) (by decide)).2.1⟩

/-- C7 counterexample: a manifest whose `scripts` value is a truthy
string without a `test` substring makes `scripts['test'] = ...` raise
`TypeError`, so the migration produces no output at all for this input
dict — it is not total, contradicting the claim's universal frame
guarantee. -/
theorem transform_package_json_counterexample :
    transformPackageJson (.jobj pkgBadScripts) "r" "u" false
      = Except.error "TypeError: object does not support item assignment" := rfl

/-- C7 (amended): on every input dict for which the migration
completes without raising (the scripts block raises `TypeError` when a
truthy non-dict scripts value needs a test/build entry inserted, or
when the build fallback probes a non-container files value), every
field outside the governed set (name, version, repository, homepage,
private, scripts, workspaces) keeps exactly its original value, a
present version (such as `0.9.0`) is unchanged, and the `workspaces`
field is absent from the output. -/
theorem transform_package_json_frame (fields : List (String × JVal))
    (rn ru : String) (lib : Bool) (out : List (String × JVal))
    (hout : transformPackageJson (.jobj fields) rn ru lib = .ok out) :
    (∀ k, k ∉ ["name", "version", "repository", "homepage", "private",
        "scripts", "workspaces"] →
      alookup k out = alookup k fields)
    ∧ alookup "workspaces" out = none
    ∧ (∀ v, alookup "version" fields = some v →
        alookup "version" out = some v) := by
  have hred : transformPackageJson (.jobj fields) rn ru lib =
      (match migrateScripts (migratePrivate lib (migrateHomepage ru
          (migrateRepository ru (migrateVersion (migrateName rn fields))))) with
       | .ok pkg2 => Except.ok (migrateWorkspaces pkg2)
       | .error e => Except.error e) := rfl
  rw [hred] at hout
  cases hms : migrateScripts (migratePrivate lib (migrateHomepage ru
      (migrateRepository ru (migrateVersion (migrateName rn fields))))) with
  | error e =>
    rw [hms] at hout
    exact Except.noConfusion hout
  | ok pkg2 =>
    rw [hms] at hout
    cases Except.ok.inj hout
    refine ⟨?_, ?_, ?_⟩
    · intro k hk
      simp only [List.mem_cons, List.mem_singleton, not_or] at hk
      obtain ⟨h1, h2, h3, h4, h5, h6, h7, -⟩ := hk
      rw [migrateWorkspaces_frame h7, migrateScripts_frame h6 hms,
          migratePrivate_frame lib h5, migrateHomepage_frame ru h4,
          migrateRepository_frame ru h3, migrateVersion_frame h2,
          migrateName_frame rn h1]
    · exact migrateWorkspaces_none _
    · intro v hv
      have hv1 : alookup "version" (migrateName rn fields) = some v := by
        rw [migrateName_frame rn (by decide) fields]
        exact hv
      rw [migrateWorkspaces_frame (by decide), migrateScripts_frame (by decide) hms,
          migratePrivate_frame lib (by decide), migrateHomepage_frame ru (by decide),
          migrateRepository_frame ru (by decide), migrateVersion_keep hv1]
      exact hv1

/-- C7 witness: on a concrete manifest the migration completes, the
ungoverned `author` field and the pinned version `0.9.0` survive
unchanged, and `workspaces` is gone. -/
theorem transform_package_json_frame_witness :
    ∃ out, transformPackageJson (.jobj pkgWitness) "r" "u" false = Except.ok out
      ∧ alookup "author" out = some (.jstr "me")
      ∧ alookup "version" out = some (.jstr "0.9.0")
      ∧ alookup "workspaces" out = none := by
  refine ⟨_, rfl, ?_, ?_, ?_⟩
  · exact ((transform_package_json_frame pkgWitness "r" "u" false _ rfl).1 "author"
      (by decide)).trans rfl
  · exact (transform_package_json_frame pkgWitness "r" "u" false _ rfl).2.2
      (.jstr "0.9.0") rfl
  · exact (transform_package_json_frame pkgWitness "r" "u" false _ rfl).2.1

/-- C8 counterexample: with one critical conflict present and the
force flag unset, a dry run does not abort — the gate also requires
`not dry_run`, which the claim omits. -/
theorem analyze_monorepo_gate_counterexample :
    (criticalConflicts oneCriticalAnalysis.conflicts).length = 1
    ∧ (analyzeMonorepo oneCriticalAnalysis true false).result
        = Except.ok ([], []) :=
  ⟨by decide, rfl⟩

/-- C8 (amended): the analysis triple is produced unconditionally, and
the call raises exactly when critical conflicts exist, the run is not a
dry run, and force is unset — the error surfacing the critical-conflict
count; otherwise the projects/components pair is returned. -/
theorem analyze_monorepo_gate (a : AnalysisState) (dryRun force : Bool) :
    (analyzeMonorepo a dryRun force).analysis = a
    ∧ (analyzeMonorepo a dryRun force).result =
        (if (criticalConflicts a.conflicts).isEmpty = false ∧ dryRun = false
            ∧ force = false
         then Except.error ("Critical dependency conflicts detected: "
            ++ toString (criticalConflicts a.conflicts).length ++ " conflicts")
         else Except.ok (a.projects, a.components)) := by
  refine ⟨rfl, ?_⟩
  cases dryRun <;> cases force <;>
    cases hemp : (criticalConflicts a.conflicts).isEmpty <;>
      simp [analyzeMonorepo, hemp]

/-- C9: under dry-run, creating a repository named `My Service!!`
performs no remote action and returns the synthesized clone URL
`https://github.com/{org}/my-service.git`, which ends in
`my-service.git`. -/
theorem dry_run_create_repo_github (org : String)
    (live : String → Option String × List RemoteAction) :
    (createRepoGithub true org live "My Service!!").1 =
      some ("https://github.com/" ++ org ++ "/" ++ "my-service" ++ ".git")
    ∧ (createRepoGithub true org live "My Service!!").2 = []
    ∧ ∃ p, "https://github.com/" ++ org ++ "/" ++ "my-service" ++ ".git"
        = p ++ "my-service.git" := by
  have hs : sanitizeRepoName "My Service!!" = "my-service" := by decide
  refine ⟨?_, rfl, ⟨"https://github.com/" ++ org ++ "/", ?_⟩⟩
  · show (some ("https://github.com/" ++ org ++ "/" ++ sanitizeRepoName "My Service!!"
      ++ ".git") : Option String) = _
    rw [hs]
  · rw [String.append_assoc]
    exact congrArg (fun x => "https://github.com/" ++ org ++ "/" ++ x)
      (show "my-service" ++ ".git" = "my-service.git" from rfl)

/-- C10: `_detect_missing_dependencies` never emits a self-conflict:
every emitted conflict has distinct source and target projects, because
dependency entries equal to the project's own name are skipped. -/
theorem missing_dependency_no_self (projects : List (String × ProjectInfo)) :
    ∀ c ∈ detectMissingDependencies projects,
      c.source_project ≠ c.target_project := by
  intro c hc
  unfold detectMissingDependencies at hc
  rcases List.mem_flatMap.1 hc with ⟨pp, _, hcin⟩
  rcases List.mem_filterMap.1 hcin with ⟨dep, _, he⟩
  by_cases hcond : keyMem projects dep ∧ dep ≠ pp.1
  · rw [if_pos hcond] at he
    cases Option.some.inj he
    show pp.1 ≠ dep
    exact fun e => hcond.2 e.symm
  · rw [if_neg hcond] at he
    exact absurd he (by simp)

/-- C10 witness: with a self-dependency present, the only emitted
conflict is the genuine (P, Q) one, and it is not a self-conflict. -/
theorem missing_dependency_no_self_witness :
    (mkMissingConflict "P" "Q").source_project
      ≠ (mkMissingConflict "P" "Q").target_project :=
  missing_dependency_no_self selfAndOtherProjects (mkMissingConflict "P" "Q")
    (by decide)

end MonoAgent
